import Mathlib

/-!
# Role-based access control of go-template

A shallow embedding of the role registry (`pkg/roles/roles.go`), the
authorization middleware (`internal/middleware/role_middleware.go`), the role
service (`internal/service/role_service.go`), the user repository
(`internal/repository/user_repository.go`) and the role handler
(`internal/handler/role_handler.go`), followed by the properties proved of them.

Conventions of the embedding:

* a Go function returning `(T, error)` returns `Except GoError T`;
* code that talks to a collaborator threads the collaborator's state `σ`
  explicitly: `σ → result × σ`;
* calls to `logger.*` only write to the log sink and return nothing; they are
  left out;
* Go `int` is `Int`; the conversion `int32(id)` done by the repository is
  `toInt32`, with the wrap-around written out;
* the packages `pkg/response` and `db/sqlc` are not among the sources: the
  response helpers and the three queries the repository runs are modelled from
  the specification, and say so in their comments. The interfaces
  `repository.UserRepository` and `service.RoleService` are structures of
  functions, so that a statement about the role service or the role handler
  holds for every implementation of its collaborator.
-/

namespace GoTemplate

/-! ## pkg/roles/roles.go -/

/-- Role constant `Admin`. -/
def roles.Admin : String := "admin"

/-- Role constant `Moderator`. -/
def roles.Moderator : String := "moderator"

/-- Role constant `User`. -/
def roles.User : String := "user"

/-- The function `GetAllRoles` returns all valid roles. -/
def roles.GetAllRoles : List String :=
  [roles.Admin, roles.Moderator, roles.User]

/-- The function `IsValidRole`: the `switch role` with the single case `Admin, Moderator, User`. -/
def roles.IsValidRole (role : String) : Bool :=
  if role == roles.Admin || role == roles.Moderator || role == roles.User then
    true
  else
    false

/-- The function `HasAdminAccess` checks if the role has admin-level access. -/
def roles.HasAdminAccess (role : String) : Bool :=
  role == roles.Admin

/-- The function `HasModeratorAccess` checks if the role has moderator-level
access or higher. -/
def roles.HasModeratorAccess (role : String) : Bool :=
  role == roles.Admin || role == roles.Moderator

/-- The function `CanManageUsers` checks if the role can manage users. -/
def roles.CanManageUsers (role : String) : Bool :=
  role == roles.Admin

/-- The function `CanManageFiles` checks if the role can manage any files. -/
def roles.CanManageFiles (role : String) : Bool :=
  role == roles.Admin || role == roles.Moderator

/-- The function `CanViewAllUsers` checks if the role can view all users. -/
def roles.CanViewAllUsers (role : String) : Bool :=
  role == roles.Admin || role == roles.Moderator

/-! ## Go errors -/

/-- Error values. The package-level variables (`service.ErrInvalidRole`,
`service.ErrSameRole`, `sql.ErrNoRows`) are one value each; `new msg` is the
value made by a call `errors.New(msg)` in the code, which is equal to none of
the package-level variables; `wrap msg inner` is an error whose `Unwrap` gives
`inner` (as `fmt.Errorf` with `%w` makes); `numError` is the `*strconv.NumError`
of a failed `strconv.Atoi`. -/
inductive GoError where
  | ErrInvalidRole
  | ErrSameRole
  | ErrNoRows
  | new (msg : String)
  | wrap (msg : String) (inner : GoError)
  | numError (num : String) (reason : String)
  deriving DecidableEq, Repr

/-- The text `err.Error()` of an error. For a `*strconv.NumError` the number is
quoted; `String.quote` stands for `strconv.Quote`, with which it agrees on
printable text. -/
def GoError.Error : GoError → String
  | .ErrInvalidRole => "invalid role"
  | .ErrSameRole => "user already has this role"
  | .ErrNoRows => "sql: no rows in result set"
  | .new msg => msg
  | .wrap msg _ => msg
  | .numError num reason => "strconv.Atoi: parsing " ++ num.quote ++ ": " ++ reason

/-- The call `errors.Is(err, target)`: `err` or an error on its `Unwrap` chain equals `target`. -/
def errors.Is : GoError → GoError → Bool
  | .wrap msg inner, target =>
      if GoError.wrap msg inner = target then true else errors.Is inner target
  | err, target => if err = target then true else false

/-! ## Entities and transfer objects -/

/-- The struct `entity.User`, with the fields the repository fills in. -/
structure entity.User where
  ID : Int
  Name : String
  Email : String
  PasswordHash : String
  Role : String
  CreatedAt : Int
  UpdatedAt : Int
  deriving DecidableEq, Repr

/-- The struct `dto.UserResponse`, with the fields the role service fills in. -/
structure dto.UserResponse where
  ID : Int
  Name : String
  Email : String
  Role : String
  CreatedAt : Int
  UpdatedAt : Int
  deriving DecidableEq, Repr

/-- The struct `dto.UpdateUserRoleRequest`: the body of a role update, read through its field `Role`. -/
structure dto.UpdateUserRoleRequest where
  Role : String
  deriving DecidableEq, Repr

/-! ## pkg/response and the echo context -/

/-- The `data` argument of a response helper. -/
inductive Payload where
  | none
  | text (s : String)
  | validation (errors : List String)
  | user (u : dto.UserResponse)
  | users (us : List dto.UserResponse)
  | object (entries : List (String × List String))
  deriving DecidableEq, Repr

/-- What a response helper writes to the client. -/
structure HTTPResponse where
  status : Nat
  message : String
  data : Payload
  deriving DecidableEq, Repr

/-- Modelled from the spec: package `pkg/response` is not among the sources.
`response.Success` answers 200 ("success → 200 with updated user"). -/
def response.Success (message : String) (data : Payload) : HTTPResponse :=
  ⟨200, message, data⟩

/-- Modelled from the spec: package `pkg/response` is not among the sources.
`response.BadRequest` answers 400 ("role invalid → 400; role unchanged → 400"). -/
def response.BadRequest (message : String) (data : Payload) : HTTPResponse :=
  ⟨400, message, data⟩

/-- Modelled from the spec: package `pkg/response` is not among the sources.
`response.ValidationError` answers 400 ("body fails validation ... → 400"). -/
def response.ValidationError (message : String) (errors : List String) : HTTPResponse :=
  ⟨400, message, .validation errors⟩

/-- Modelled from the spec: package `pkg/response` is not among the sources.
`response.InternalServerError` answers 500 ("user not found or internal failure → 500"). -/
def response.InternalServerError (message : String) (data : Payload) : HTTPResponse :=
  ⟨500, message, data⟩

/-- Modelled from the spec: package `pkg/response` is not among the sources.
`response.Forbidden` is the rejection of the authorization middleware
("treat as Forbidden, not Unauthenticated"), HTTP status 403. -/
def response.Forbidden (message : String) : HTTPResponse :=
  ⟨403, message, .none⟩

/-- A value of type `interface{}` kept in the request context. -/
inductive Value where
  | nil
  | str (s : String)
  | int (n : Int)
  | bool (b : Bool)
  deriving DecidableEq, Repr

/-- The part of `echo.Context` the role code reads: the key/value bag of
`c.Set`/`c.Get`, the path parameters, the query parameters, and what `c.Bind`
makes of the request body. -/
structure echo.Context where
  store : List (String × Value)
  params : List (String × String)
  query : List (String × String)
  body : Except GoError dto.UpdateUserRoleRequest

/-- The call `c.Get(key)`: the stored value, `nil` when the key was never set. -/
def echo.Context.Get (c : echo.Context) (key : String) : Value :=
  match c.store.lookup key with
  | some v => v
  | none => .nil

/-- The call `c.Param(name)`: the path parameter, empty when absent. -/
def echo.Context.Param (c : echo.Context) (name : String) : String :=
  (c.params.lookup name).getD ""

/-- The call `c.QueryParam(name)`: the query parameter, empty when absent. -/
def echo.Context.QueryParam (c : echo.Context) (name : String) : String :=
  (c.query.lookup name).getD ""

/-- The call `c.Bind(&req)`. -/
def echo.Context.Bind (c : echo.Context) : Except GoError dto.UpdateUserRoleRequest :=
  c.body

/-! ## internal/middleware/role_middleware.go -/

/-- How a middleware ends: `passed r` is `return next(c)`, the wrapped handler
was called and gave `r`; `answered resp` is `return response.X(c, ...)`, the
middleware wrote `resp` itself and the wrapped handler was not called. -/
inductive Served (ρ : Type) where
  | passed (r : ρ)
  | answered (resp : HTTPResponse)

/-- The loop `for _, allowedRole := range allowedRoles` of `RequireRoles`,
with the statements after it for the case that it runs to its end. -/
def middleware.RequireRoles.range {ρ : Type} (next : echo.Context → ρ) (c : echo.Context)
    (userRole : String) : List String → Served ρ
  | [] => .answered (response.Forbidden "Insufficient permissions")
  | allowedRole :: rest =>
      if userRole == allowedRole then
        .passed (next c)
      else
        middleware.RequireRoles.range next c userRole rest

/-- The middleware `RequireRoles(allowedRoles...)`, applied to `next` and then to `c`. -/
def middleware.RequireRoles {ρ : Type} (allowedRoles : List String) (next : echo.Context → ρ)
    (c : echo.Context) : Served ρ :=
  match c.Get "user_role" with
  | .str userRole => middleware.RequireRoles.range next c userRole allowedRoles
  | _ => .answered (response.Forbidden "Access denied")

/-- The middleware `RequireAdmin()`. -/
def middleware.RequireAdmin {ρ : Type} (next : echo.Context → ρ) (c : echo.Context) : Served ρ :=
  middleware.RequireRoles [roles.Admin] next c

/-- The middleware `RequireModeratorOrAdmin()`. -/
def middleware.RequireModeratorOrAdmin {ρ : Type} (next : echo.Context → ρ)
    (c : echo.Context) : Served ρ :=
  middleware.RequireRoles [roles.Admin, roles.Moderator] next c

/-- The function `joinRoles`, the helper of the log lines. -/
def middleware.joinRoles (roles : List String) : String :=
  match roles with
  | [] => ""
  | first :: rest => rest.foldl (fun result r => result ++ ", " ++ r) first

/-! ## The storage layer -/

/-- The conversion `int32(id)` of a Go `int`: the low 32 bits, read as a signed number. -/
def toInt32 (n : Int) : Int :=
  (n + 2147483648) % 4294967296 - 2147483648

/-- The timestamp columns of a row, read through their field `Time`. -/
structure sql.NullTime where
  Time : Int
  Valid : Bool
  deriving DecidableEq, Repr

/-- A row of table `users` as the generated query code returns it (`db.User`),
with the fields the repository reads. -/
structure db.User where
  ID : Int
  Name : String
  Email : String
  PasswordHash : String
  Role : String
  CreatedAt : sql.NullTime
  UpdatedAt : sql.NullTime
  deriving DecidableEq, Repr

/-- The struct `db.UpdateUserRoleParams`. -/
structure db.UpdateUserRoleParams where
  ID : Int
  Role : String
  deriving DecidableEq, Repr

/-- The table `users`: its rows, in the order the database returns them. -/
abbrev db.Table := List db.User

/-- Modelled from the spec: the generated package `db/sqlc` is not among the
sources. `GetUser` is the lookup `get(id) -> User | NotFound`: the row with this
id, `sql.ErrNoRows` when there is none; the table is left as it is. -/
def db.Queries.GetUser (id : Int) (t : db.Table) : Except GoError db.User × db.Table :=
  match t.find? (fun row => row.ID == id) with
  | some row => (.ok row, t)
  | none => (.error .ErrNoRows, t)

/-- Modelled from the spec: the generated package `db/sqlc` is not among the
sources. `UpdateUserRole` is `update(id, role) -> User`: the role of the row
with this id becomes `arg.Role` and the updated row is returned; the spec names
no other effect, so the other columns and rows are kept. When there is no such
row the result is `sql.ErrNoRows` and the table is left as it is. -/
def db.Queries.UpdateUserRole (arg : db.UpdateUserRoleParams) (t : db.Table) :
    Except GoError db.User × db.Table :=
  let t1 := t.map (fun row => if row.ID == arg.ID then { row with Role := arg.Role } else row)
  match t1.find? (fun row => row.ID == arg.ID) with
  | some row => (.ok row, t1)
  | none => (.error .ErrNoRows, t)

/-- Modelled from the spec: the generated package `db/sqlc` is not among the
sources. `GetUsersByRole` is `listByRole(role) -> [User]`: the rows whose role
equals `role`, in table order; the table is left as it is. -/
def db.Queries.GetUsersByRole (role : String) (t : db.Table) :
    Except GoError (List db.User) × db.Table :=
  (.ok (t.filter (fun row => row.Role == role)), t)

/-- The interface `repository.UserRepository`, with the three methods the role
service calls, over the state `σ` of the implementation. -/
structure repository.UserRepository (σ : Type) where
  GetByID : Int → σ → Except GoError entity.User × σ
  UpdateRole : Int → String → σ → Except GoError entity.User × σ
  GetByRole : String → σ → Except GoError (List entity.User) × σ

/-- The conversion of a row to `entity.User` that every repository method writes out. -/
def userRepository.toEntity (row : db.User) : entity.User :=
  { ID := row.ID
    Name := row.Name
    Email := row.Email
    PasswordHash := row.PasswordHash
    Role := row.Role
    CreatedAt := row.CreatedAt.Time
    UpdatedAt := row.UpdatedAt.Time }

/-- The method `userRepository.GetByID`. -/
def userRepository.GetByID (id : Int) (t : db.Table) : Except GoError entity.User × db.Table :=
  match db.Queries.GetUser (toInt32 id) t with
  | (.error err, t1) => (.error err, t1)
  | (.ok user, t1) => (.ok (userRepository.toEntity user), t1)

/-- The method `userRepository.UpdateRole`. -/
def userRepository.UpdateRole (id : Int) (role : String) (t : db.Table) :
    Except GoError entity.User × db.Table :=
  match db.Queries.UpdateUserRole { ID := toInt32 id, Role := role } t with
  | (.error err, t1) => (.error err, t1)
  | (.ok updatedUser, t1) => (.ok (userRepository.toEntity updatedUser), t1)

/-- The method `userRepository.GetByRole`. -/
def userRepository.GetByRole (role : String) (t : db.Table) :
    Except GoError (List entity.User) × db.Table :=
  match db.Queries.GetUsersByRole role t with
  | (.error err, t1) => (.error err, t1)
  | (.ok userList, t1) => (.ok (userList.map userRepository.toEntity), t1)

/-- The constructor `NewUserRepository`: the repository over the table `users`. -/
def repository.NewUserRepository : repository.UserRepository db.Table :=
  { GetByID := userRepository.GetByID
    UpdateRole := userRepository.UpdateRole
    GetByRole := userRepository.GetByRole }

/-- A call received by the repository. -/
inductive RepoCall where
  | GetByID (id : Int)
  | UpdateRole (id : Int) (role : String)
  | GetByRole (role : String)
  deriving DecidableEq, Repr

/-- A repository that writes down every call it receives, in order, and hands
it to `repo`. -/
def repository.recording {σ : Type} (repo : repository.UserRepository σ) :
    repository.UserRepository (σ × List RepoCall) :=
  { GetByID := fun id s =>
      let r := repo.GetByID id s.1
      (r.1, (r.2, s.2 ++ [RepoCall.GetByID id]))
    UpdateRole := fun id role s =>
      let r := repo.UpdateRole id role s.1
      (r.1, (r.2, s.2 ++ [RepoCall.UpdateRole id role]))
    GetByRole := fun role s =>
      let r := repo.GetByRole role s.1
      (r.1, (r.2, s.2 ++ [RepoCall.GetByRole role])) }

/-! ## internal/service/role_service.go -/

/-- The struct literal `&dto.UserResponse` that both service methods write out. -/
def roleService.toResponse (user : entity.User) : dto.UserResponse :=
  { ID := user.ID
    Name := user.Name
    Email := user.Email
    Role := user.Role
    CreatedAt := user.CreatedAt
    UpdatedAt := user.UpdatedAt }

/-- The method `roleService.UpdateUserRole`. -/
def roleService.UpdateUserRole {σ : Type} (userRepo : repository.UserRepository σ)
    (userID : Int) (newRole : String) (s : σ) : Except GoError dto.UserResponse × σ :=
  if !roles.IsValidRole newRole then
    (.error .ErrInvalidRole, s)
  else
    match userRepo.GetByID userID s with
    | (.error err, s1) =>
        if errors.Is err .ErrNoRows then
          (.error (.new "user not found"), s1)
        else
          (.error (.new "failed to get user"), s1)
    | (.ok currentUser, s1) =>
        if currentUser.Role == newRole then
          (.error .ErrSameRole, s1)
        else
          match userRepo.UpdateRole userID newRole s1 with
          | (.error _, s2) => (.error (.new "failed to update user role"), s2)
          | (.ok updatedUser, s2) => (.ok (roleService.toResponse updatedUser), s2)

/-- The method `roleService.GetUsersByRole`. -/
def roleService.GetUsersByRole {σ : Type} (userRepo : repository.UserRepository σ)
    (role : String) (s : σ) : Except GoError (List dto.UserResponse) × σ :=
  if !roles.IsValidRole role then
    (.error .ErrInvalidRole, s)
  else
    match userRepo.GetByRole role s with
    | (.error _, s1) => (.error (.new "failed to get users by role"), s1)
    | (.ok users, s1) => (.ok (users.map roleService.toResponse), s1)

/-- The interface `service.RoleService`. -/
structure service.RoleService (σ : Type) where
  UpdateUserRole : Int → String → σ → Except GoError dto.UserResponse × σ
  GetUsersByRole : String → σ → Except GoError (List dto.UserResponse) × σ

/-- The constructor `NewRoleService`. -/
def service.NewRoleService {σ : Type} (userRepo : repository.UserRepository σ) :
    service.RoleService σ :=
  { UpdateUserRole := roleService.UpdateUserRole userRepo
    GetUsersByRole := roleService.GetUsersByRole userRepo }

/-! ## internal/handler/role_handler.go -/

/-- The digit loop of `strconv.ParseUint` in base 10 at 64 bits: a byte that is
no digit is a syntax error, a value above `2^64 - 1` a range error, whichever
comes first from the left. -/
def strconv.parseDigits (acc : Nat) : List Char → Except String Nat
  | [] => .ok acc
  | ch :: rest =>
      if ch.isDigit then
        let n1 := acc * 10 + (ch.toNat - 48)
        if n1 > 18446744073709551615 then
          .error "value out of range"
        else
          strconv.parseDigits n1 rest
      else
        .error "invalid syntax"

/-- The standard function `strconv.Atoi` at 64 bits: an optional sign, then
at least one decimal digit, and a value that fits a Go `int`. -/
def strconv.Atoi (s : String) : Except GoError Int :=
  let signed : Bool × List Char :=
    match s.toList with
    | '-' :: rest => (true, rest)
    | '+' :: rest => (false, rest)
    | rest => (false, rest)
  if signed.2.isEmpty then
    .error (.numError s "invalid syntax")
  else
    match strconv.parseDigits 0 signed.2 with
    | .error reason => .error (.numError s reason)
    | .ok un =>
        if !signed.1 && un ≥ 9223372036854775808 then
          .error (.numError s "value out of range")
        else if signed.1 && un > 9223372036854775808 then
          .error (.numError s "value out of range")
        else if signed.1 then
          .ok (-(un : Int))
        else
          .ok (un : Int)

/-- The collaborator `validator.Validator` (package `pkg/validator`), through
its method `ValidateStruct`: `none` is the `nil` of a request that passes. -/
structure validator.Validator where
  ValidateStruct : dto.UpdateUserRoleRequest → Option (List String)

/-- The struct `RoleHandler`. -/
structure RoleHandler (σ : Type) where
  roleService : service.RoleService σ
  validator : validator.Validator

/-- The method `RoleHandler.UpdateUserRole`. -/
def RoleHandler.UpdateUserRole {σ : Type} (h : RoleHandler σ) (c : echo.Context) (s : σ) :
    HTTPResponse × σ :=
  match strconv.Atoi (c.Param "id") with
  | .error err => (response.BadRequest "Invalid user ID" (.text err.Error), s)
  | .ok userID =>
      match c.Bind with
      | .error err => (response.BadRequest "Invalid request body" (.text err.Error), s)
      | .ok req =>
          match h.validator.ValidateStruct req with
          | some validationErrors =>
              (response.ValidationError "Validation failed" validationErrors, s)
          | none =>
              match h.roleService.UpdateUserRole userID req.Role s with
              | (.error err, s1) =>
                  if err = .ErrInvalidRole then
                    (response.BadRequest "Invalid role" (.text err.Error), s1)
                  else if err = .ErrSameRole then
                    (response.BadRequest "User already has this role" (.text err.Error), s1)
                  else
                    (response.InternalServerError "Failed to update user role"
                      (.text err.Error), s1)
              | (.ok updatedUser, s1) =>
                  (response.Success "User role updated successfully" (.user updatedUser), s1)

/-- The method `RoleHandler.GetUsersByRole`. -/
def RoleHandler.GetUsersByRole {σ : Type} (h : RoleHandler σ) (c : echo.Context) (s : σ) :
    HTTPResponse × σ :=
  let role := c.QueryParam "role"
  if role == "" then
    (response.BadRequest "Role query parameter is required" .none, s)
  else
    match h.roleService.GetUsersByRole role s with
    | (.error err, s1) =>
        if err = .ErrInvalidRole then
          (response.BadRequest "Invalid role" (.text err.Error), s1)
        else
          (response.InternalServerError "Failed to get users by role" (.text err.Error), s1)
    | (.ok users, s1) => (response.Success "Users retrieved successfully" (.users users), s1)

/-- The method `RoleHandler.GetAvailableRoles`. -/
def RoleHandler.GetAvailableRoles {σ : Type} (_h : RoleHandler σ) (_c : echo.Context) (s : σ) :
    HTTPResponse × σ :=
  let availableRoles := roles.GetAllRoles
  (response.Success "Available roles retrieved successfully"
    (.object [("roles", availableRoles)]), s)

/-! ## Vocabulary of the statements -/

/-- Every row of the table has one of the three roles. -/
def db.AllRolesValid (t : db.Table) : Prop :=
  ∀ row ∈ t, row.Role = "admin" ∨ row.Role = "moderator" ∨ row.Role = "user"

instance db.AllRolesValid.decidable (t : db.Table) : Decidable (db.AllRolesValid t) := by
  unfold db.AllRolesValid
  infer_instance

/-- A repository that answers from three fixed results and never changes state;
it stands for any implementation of the interface, a failing one included. -/
def repository.fixed (byID : Except GoError entity.User)
    (updated : Except GoError entity.User) (byRole : Except GoError (List entity.User)) :
    repository.UserRepository Unit :=
  { GetByID := fun _ s => (byID, s)
    UpdateRole := fun _ _ s => (updated, s)
    GetByRole := fun _ s => (byRole, s) }

/-- A role service that answers every call with the same results. -/
def service.fixed (upd : Except GoError dto.UserResponse)
    (list : Except GoError (List dto.UserResponse)) : service.RoleService Unit :=
  { UpdateUserRole := fun _ _ s => (upd, s)
    GetUsersByRole := fun _ s => (list, s) }

/-- A validator that lets every request pass. -/
def validator.pass : validator.Validator :=
  { ValidateStruct := fun _ => none }

/-- Sample rows: user 1 "ann" is a plain user, user 2 "bob" is a moderator. -/
def sampleTable : db.Table :=
  [ { ID := 1, Name := "ann", Email := "ann@x", PasswordHash := "h1", Role := "user",
      CreatedAt := ⟨10, true⟩, UpdatedAt := ⟨10, true⟩ },
    { ID := 2, Name := "bob", Email := "bob@x", PasswordHash := "h2", Role := "moderator",
      CreatedAt := ⟨20, true⟩, UpdatedAt := ⟨20, true⟩ } ]

/-- A request context that carries the principal role `v` and nothing else. -/
def ctxWithRole (v : Value) : echo.Context :=
  { store := [("user_role", v)], params := [], query := [], body := .ok ⟨""⟩ }

/-- A request context for the role handler: path parameter `id`, query
parameter `role`, and a body that binds to the role `bodyRole`. -/
def ctxRequest (id : String) (queryRole : String) (bodyRole : String) : echo.Context :=
  { store := [("user_role", .str "admin")], params := [("id", id)],
    query := [("role", queryRole)], body := .ok ⟨bodyRole⟩ }

/-! ## Lemmas -/

theorem roles.IsValidRole_iff (s : String) :
    roles.IsValidRole s = true ↔ (s = "admin" ∨ s = "moderator" ∨ s = "user") := by
  simp [roles.IsValidRole, roles.Admin, roles.Moderator, roles.User, or_assoc]

theorem roles.IsValidRole_false_iff (s : String) :
    roles.IsValidRole s = false ↔ ¬ (s = "admin" ∨ s = "moderator" ∨ s = "user") := by
  rw [← roles.IsValidRole_iff]
  simp

theorem middleware.RequireRoles.range_mem {ρ : Type} (next : echo.Context → ρ)
    (c : echo.Context) (userRole : String) (L : List String) (h : userRole ∈ L) :
    middleware.RequireRoles.range next c userRole L = .passed (next c) := by
  induction L with
  | nil => simp at h
  | cons a rest ih =>
    by_cases ha : userRole = a
    · simp [middleware.RequireRoles.range, ha]
    · have hrest : userRole ∈ rest := by
        rcases List.mem_cons.mp h with h1 | h1
        · exact absurd h1 ha
        · exact h1
      simp [middleware.RequireRoles.range, ha, ih hrest]

theorem middleware.RequireRoles.range_not_mem {ρ : Type} (next : echo.Context → ρ)
    (c : echo.Context) (userRole : String) (L : List String) (h : userRole ∉ L) :
    middleware.RequireRoles.range next c userRole L
      = .answered (response.Forbidden "Insufficient permissions") := by
  induction L with
  | nil => simp [middleware.RequireRoles.range]
  | cons a rest ih =>
    have ha : userRole ≠ a := fun e => h (by simp [e])
    have hrest : userRole ∉ rest := fun e => h (List.mem_cons_of_mem _ e)
    simp [middleware.RequireRoles.range, ha, ih hrest]

theorem userRepository.GetByID_table (id : Int) (t : db.Table) :
    (userRepository.GetByID id t).2 = t := by
  unfold userRepository.GetByID db.Queries.GetUser
  cases t.find? (fun row => row.ID == toInt32 id) <;> rfl

theorem userRepository.GetByID_ok {id : Int} {t t1 : db.Table} {cur : entity.User}
    (h : userRepository.GetByID id t = (.ok cur, t1)) :
    t1 = t ∧ ∃ row, t.find? (fun row => row.ID == toInt32 id) = some row
      ∧ cur = userRepository.toEntity row := by
  unfold userRepository.GetByID db.Queries.GetUser at h
  cases hf : t.find? (fun row => row.ID == toInt32 id) with
  | none => simp [hf] at h
  | some row =>
    simp only [hf, Prod.mk.injEq, Except.ok.injEq] at h
    exact ⟨h.2.symm, row, rfl, h.1.symm⟩

theorem userRepository.UpdateRole_of_found {id : Int} {t : db.Table} {row : db.User}
    (role : String) (h : t.find? (fun row => row.ID == toInt32 id) = some row) :
    userRepository.UpdateRole id role t
      = (.ok (userRepository.toEntity { row with Role := role }),
         t.map (fun r => if r.ID == toInt32 id then { r with Role := role } else r)) := by
  have hcomp : ((fun r : db.User => r.ID == toInt32 id)
      ∘ (fun r : db.User => if r.ID == toInt32 id then { r with Role := role } else r))
      = (fun r : db.User => r.ID == toInt32 id) := by
    funext r
    by_cases hr : r.ID = toInt32 id <;> simp [hr]
  have hid : (row.ID == toInt32 id) = true := by
    simpa using List.find?_some h
  unfold userRepository.UpdateRole db.Queries.UpdateUserRole
  simp only [List.find?_map, hcomp, h, Option.map_some', hid, if_true]

theorem db.AllRolesValid_update (t : db.Table) (id : Int) (role : String)
    (hrole : role = "admin" ∨ role = "moderator" ∨ role = "user") (ht : db.AllRolesValid t) :
    db.AllRolesValid
      (t.map (fun r => if r.ID == id then { r with Role := role } else r)) := by
  intro row hrow
  rcases List.mem_map.mp hrow with ⟨r, hr, rfl⟩
  by_cases hid : r.ID = id
  · simp [hid, hrole]
  · simpa [hid] using ht r hr

theorem userRepository.UpdateRole_table (id : Int) (role : String) (t : db.Table) :
    (userRepository.UpdateRole id role t).2 = t
    ∨ (userRepository.UpdateRole id role t).2
        = t.map (fun r => if r.ID == toInt32 id then { r with Role := role } else r) := by
  unfold userRepository.UpdateRole db.Queries.UpdateUserRole
  simp only []
  cases (List.map (fun r : db.User => if r.ID == toInt32 id then { r with Role := role } else r)
      t).find? (fun row => row.ID == toInt32 id) with
  | none => exact Or.inl rfl
  | some row => exact Or.inr rfl

theorem roleService.UpdateUserRole_table (id : Int) (role : String) (t : db.Table) :
    (roleService.UpdateUserRole repository.NewUserRepository id role t).2 = t
    ∨ (roles.IsValidRole role = true
        ∧ (roleService.UpdateUserRole repository.NewUserRepository id role t).2
          = t.map (fun r => if r.ID == toInt32 id then { r with Role := role } else r)) := by
  unfold roleService.UpdateUserRole
  cases hv : roles.IsValidRole role with
  | false => simp
  | true =>
    simp only [Bool.not_true, Bool.false_eq_true, if_false, repository.NewUserRepository]
    have hg := userRepository.GetByID_table id t
    rcases hget : userRepository.GetByID id t with ⟨res, t1⟩
    rw [hget] at hg
    simp only at hg
    subst hg
    cases res with
    | error err =>
      simp only []
      split <;> exact Or.inl rfl
    | ok cur =>
      simp only []
      split
      · exact Or.inl rfl
      · have hu := userRepository.UpdateRole_table id role t1
        rcases hupd : userRepository.UpdateRole id role t1 with ⟨res2, t2⟩
        rw [hupd] at hu
        simp only at hu
        cases res2 with
        | error e =>
          simp only []
          rcases hu with hu | hu
          · exact Or.inl hu
          · exact Or.inr ⟨trivial, hu⟩
        | ok u =>
          simp only []
          rcases hu with hu | hu
          · exact Or.inl hu
          · exact Or.inr ⟨trivial, hu⟩

theorem roleService.UpdateUserRole_calls {σ : Type} (repo : repository.UserRepository σ)
    (id : Int) (role : String) (s : σ) :
    (roleService.UpdateUserRole (repository.recording repo) id role (s, [])).2.2 = []
    ∨ (roleService.UpdateUserRole (repository.recording repo) id role (s, [])).2.2
        = [RepoCall.GetByID id]
    ∨ (roles.IsValidRole role = true
        ∧ (roleService.UpdateUserRole (repository.recording repo) id role (s, [])).2.2
          = [RepoCall.GetByID id, RepoCall.UpdateRole id role]) := by
  unfold roleService.UpdateUserRole
  cases hv : roles.IsValidRole role with
  | false => simp
  | true =>
    simp only [Bool.not_true, Bool.false_eq_true, if_false, repository.recording]
    rcases hget : repo.GetByID id s with ⟨res, s1⟩
    cases res with
    | error err =>
      simp only [List.nil_append]
      split <;> exact Or.inr (Or.inl rfl)
    | ok cur =>
      simp only [List.nil_append]
      split
      · exact Or.inr (Or.inl rfl)
      · rcases hupd : repo.UpdateRole id role s1 with ⟨res2, s2⟩
        cases res2 with
        | error e => exact Or.inr (Or.inr ⟨trivial, by simp⟩)
        | ok u => exact Or.inr (Or.inr ⟨trivial, by simp⟩)

/-! ## The role registry -/

/-- C1: for every string `s`, `IsValidRole s` is true exactly when `s` is one of
"admin", "moderator", "user"; the match is exact and case-sensitive, so that
"Admin", the empty string and "superadmin" are rejected. -/
theorem C1_IsValidRole_iff_member :
    (∀ s : String, roles.IsValidRole s = true ↔ (s = "admin" ∨ s = "moderator" ∨ s = "user"))
    ∧ roles.IsValidRole "Admin" = false
    ∧ roles.IsValidRole "" = false
    ∧ roles.IsValidRole "superadmin" = false := by
  refine ⟨roles.IsValidRole_iff, ?_, ?_, ?_⟩ <;> decide

/-! ## The authorization middleware -/

/-- C2: for every allow-list `L`, wrapped handler `next` and request context `c`,
`RequireRoles L` calls `next` exactly when the context carries a string under
"user_role" that equals some entry of `L`; when no string role is attached it
answers Forbidden ("Access denied") whatever `L` is, and when the attached role
is not in `L` it answers Forbidden ("Insufficient permissions"); in both cases
`next` is not called. -/
theorem C2_RequireRoles_permits_iff {ρ : Type} (L : List String) (next : echo.Context → ρ)
    (c : echo.Context) :
    (middleware.RequireRoles L next c = .passed (next c)
      ↔ ∃ role, c.Get "user_role" = .str role ∧ role ∈ L)
    ∧ ((∀ role, c.Get "user_role" ≠ .str role) →
        middleware.RequireRoles L next c = .answered (response.Forbidden "Access denied"))
    ∧ (∀ role, c.Get "user_role" = .str role → role ∉ L →
        middleware.RequireRoles L next c
          = .answered (response.Forbidden "Insufficient permissions")) := by
  refine ⟨⟨?_, ?_⟩, ?_, ?_⟩
  · intro h
    cases hv : c.Get "user_role" with
    | str role =>
      refine ⟨role, rfl, ?_⟩
      by_contra hmem
      rw [middleware.RequireRoles, hv] at h
      simp only [middleware.RequireRoles.range_not_mem next c role L hmem] at h
      cases h
    | nil => simp [middleware.RequireRoles, hv] at h
    | int n => simp [middleware.RequireRoles, hv] at h
    | bool b => simp [middleware.RequireRoles, hv] at h
  · rintro ⟨role, hv, hmem⟩
    simp only [middleware.RequireRoles, hv]
    exact middleware.RequireRoles.range_mem next c role L hmem
  · intro h
    cases hv : c.Get "user_role" with
    | str role => exact absurd hv (h role)
    | nil => simp [middleware.RequireRoles, hv]
    | int n => simp [middleware.RequireRoles, hv]
    | bool b => simp [middleware.RequireRoles, hv]
  · intro role hv hmem
    simp only [middleware.RequireRoles, hv]
    exact middleware.RequireRoles.range_not_mem next c role L hmem

/-- Witness of C2: role "admin" against the allow-list admin is let through, role
"user" against admin, moderator is answered Forbidden, and so is a request with
no role attached. -/
theorem C2_RequireRoles_witness :
    middleware.RequireRoles ["admin"] (fun _ => "handled") (ctxWithRole (.str "admin"))
      = .passed "handled"
    ∧ middleware.RequireRoles ["admin", "moderator"] (fun _ => "handled")
        (ctxWithRole (.str "user"))
      = .answered (response.Forbidden "Insufficient permissions")
    ∧ middleware.RequireRoles ["admin", "moderator"] (fun _ => "handled") (ctxWithRole .nil)
      = .answered (response.Forbidden "Access denied") :=
  ⟨(C2_RequireRoles_permits_iff ["admin"] (fun _ => "handled")
      (ctxWithRole (.str "admin"))).1.mpr ⟨"admin", by decide, by decide⟩,
   (C2_RequireRoles_permits_iff ["admin", "moderator"] (fun _ => "handled")
      (ctxWithRole (.str "user"))).2.2 "user" (by decide) (by decide),
   (C2_RequireRoles_permits_iff ["admin", "moderator"] (fun _ => "handled")
      (ctxWithRole .nil)).2.1 (fun _ h => by cases h)⟩

/-! ## The role service: `UpdateUserRole` -/

/-- C3: for every repository, user id and requested role that is none of
"admin", "moderator", "user", `UpdateUserRole` fails with `ErrInvalidRole`, and
the repository receives no call (neither `GetByID` nor `UpdateRole`) and keeps
its state, whether the user exists or not. -/
theorem C3_UpdateUserRole_invalid_role {σ : Type} (repo : repository.UserRepository σ)
    (userID : Int) (newRole : String) (s : σ)
    (h : ¬ (newRole = "admin" ∨ newRole = "moderator" ∨ newRole = "user")) :
    roleService.UpdateUserRole (repository.recording repo) userID newRole (s, [])
      = (.error .ErrInvalidRole, (s, [])) := by
  have hv : roles.IsValidRole newRole = false := (roles.IsValidRole_false_iff newRole).mpr h
  simp [roleService.UpdateUserRole, hv]

/-- Witness of C3: the role "superadmin" for the existing user 1 and for the
unknown user 99 of the sample table. -/
theorem C3_UpdateUserRole_invalid_role_witness :
    roleService.UpdateUserRole (repository.recording repository.NewUserRepository) 1
        "superadmin" (sampleTable, []) = (.error .ErrInvalidRole, (sampleTable, []))
    ∧ roleService.UpdateUserRole (repository.recording repository.NewUserRepository) 99
        "superadmin" (sampleTable, []) = (.error .ErrInvalidRole, (sampleTable, [])) :=
  ⟨C3_UpdateUserRole_invalid_role repository.NewUserRepository 1 "superadmin" sampleTable
      (by decide),
   C3_UpdateUserRole_invalid_role repository.NewUserRepository 99 "superadmin" sampleTable
      (by decide)⟩

/-- C4: for every repository in which the lookup of the user succeeds with a
current role equal to the valid requested role `r`, `UpdateUserRole` fails with
`ErrSameRole`, the only call the repository receives is the lookup `GetByID`
(the write `UpdateRole` is not invoked) and the state is the one the lookup
left; `ErrSameRole` is not `ErrInvalidRole`; and over the table `users` the
table after the call is the table before it. -/
theorem C4_UpdateUserRole_same_role :
    (∀ (σ : Type) (repo : repository.UserRepository σ) (userID : Int) (r : String)
        (s s1 : σ) (cur : entity.User),
        (r = "admin" ∨ r = "moderator" ∨ r = "user") →
        repo.GetByID userID s = (.ok cur, s1) → cur.Role = r →
        roleService.UpdateUserRole (repository.recording repo) userID r (s, [])
          = (.error .ErrSameRole, (s1, [RepoCall.GetByID userID])))
    ∧ GoError.ErrSameRole ≠ GoError.ErrInvalidRole
    ∧ (∀ (t t1 : db.Table) (userID : Int) (r : String) (cur : entity.User),
        (r = "admin" ∨ r = "moderator" ∨ r = "user") →
        userRepository.GetByID userID t = (.ok cur, t1) → cur.Role = r →
        roleService.UpdateUserRole repository.NewUserRepository userID r t
          = (.error .ErrSameRole, t)) := by
  refine ⟨?_, by decide, ?_⟩
  · intro σ repo userID r s s1 cur hr hget hrole
    have hv : roles.IsValidRole r = true := (roles.IsValidRole_iff r).mpr hr
    simp [roleService.UpdateUserRole, hv, repository.recording, hget, hrole]
  · intro t t1 userID r cur hr hget hrole
    have hv : roles.IsValidRole r = true := (roles.IsValidRole_iff r).mpr hr
    have ht : t1 = t := (userRepository.GetByID_ok hget).1
    subst ht
    simp [roleService.UpdateUserRole, hv, repository.NewUserRepository, hget, hrole]

/-- Witness of C4: user 2 of the sample table is a moderator and is asked to
become a moderator. -/
theorem C4_UpdateUserRole_same_role_witness :
    roleService.UpdateUserRole (repository.recording repository.NewUserRepository) 2
        "moderator" (sampleTable, [])
      = (.error .ErrSameRole, (sampleTable, [RepoCall.GetByID 2]))
    ∧ roleService.UpdateUserRole repository.NewUserRepository 2 "moderator" sampleTable
      = (.error .ErrSameRole, sampleTable) :=
  ⟨C4_UpdateUserRole_same_role.1 db.Table repository.NewUserRepository 2 "moderator"
      sampleTable sampleTable
      { ID := 2, Name := "bob", Email := "bob@x", PasswordHash := "h2", Role := "moderator",
        CreatedAt := 20, UpdatedAt := 20 }
      (by decide) (by rfl) (by rfl),
   C4_UpdateUserRole_same_role.2.2 sampleTable sampleTable 2 "moderator"
      { ID := 2, Name := "bob", Email := "bob@x", PasswordHash := "h2", Role := "moderator",
        CreatedAt := 20, UpdatedAt := 20 }
      (by decide) (by rfl) (by rfl)⟩

/-- C5: for every repository in which the lookup of user `userID` succeeds, with
a current role different from the valid `newRole`, and in which the write
succeeds with the updated user `u`: `UpdateUserRole` returns without error the
projection of `u` (its id, name, email, role and timestamps), and the
repository receives exactly the lookup followed by one write
`UpdateRole userID newRole`; the projection is the same whatever the password
hash of `u` is; and over the table `users` the write succeeds and the returned
role is `newRole`. -/
theorem C5_UpdateUserRole_success :
    (∀ (σ : Type) (repo : repository.UserRepository σ) (userID : Int) (newRole : String)
        (s s1 s2 : σ) (cur u : entity.User),
        (newRole = "admin" ∨ newRole = "moderator" ∨ newRole = "user") →
        repo.GetByID userID s = (.ok cur, s1) → cur.Role ≠ newRole →
        repo.UpdateRole userID newRole s1 = (.ok u, s2) →
        roleService.UpdateUserRole (repository.recording repo) userID newRole (s, [])
          = (.ok { ID := u.ID, Name := u.Name, Email := u.Email, Role := u.Role,
                   CreatedAt := u.CreatedAt, UpdatedAt := u.UpdatedAt },
             (s2, [RepoCall.GetByID userID, RepoCall.UpdateRole userID newRole])))
    ∧ (∀ (u : entity.User) (hash : String),
        roleService.toResponse { u with PasswordHash := hash } = roleService.toResponse u)
    ∧ (∀ (t t1 : db.Table) (userID : Int) (newRole : String) (cur : entity.User),
        (newRole = "admin" ∨ newRole = "moderator" ∨ newRole = "user") →
        userRepository.GetByID userID t = (.ok cur, t1) → cur.Role ≠ newRole →
        ∃ (resp : dto.UserResponse) (t2 : db.Table),
          roleService.UpdateUserRole (repository.recording repository.NewUserRepository)
              userID newRole (t, [])
            = (.ok resp, (t2, [RepoCall.GetByID userID, RepoCall.UpdateRole userID newRole]))
          ∧ resp.Role = newRole) := by
  have generic : ∀ (σ : Type) (repo : repository.UserRepository σ) (userID : Int)
      (newRole : String) (s s1 s2 : σ) (cur u : entity.User),
      (newRole = "admin" ∨ newRole = "moderator" ∨ newRole = "user") →
      repo.GetByID userID s = (.ok cur, s1) → cur.Role ≠ newRole →
      repo.UpdateRole userID newRole s1 = (.ok u, s2) →
      roleService.UpdateUserRole (repository.recording repo) userID newRole (s, [])
        = (.ok { ID := u.ID, Name := u.Name, Email := u.Email, Role := u.Role,
                 CreatedAt := u.CreatedAt, UpdatedAt := u.UpdatedAt },
           (s2, [RepoCall.GetByID userID, RepoCall.UpdateRole userID newRole])) := by
    intro σ repo userID newRole s s1 s2 cur u hr hget hne hupd
    have hv : roles.IsValidRole newRole = true := (roles.IsValidRole_iff newRole).mpr hr
    simp [roleService.UpdateUserRole, hv, repository.recording, hget, hne, hupd,
      roleService.toResponse]
  refine ⟨generic, fun u hash => rfl, ?_⟩
  intro t t1 userID newRole cur hr hget hne
  obtain ⟨ht, row, hfind, hcur⟩ := userRepository.GetByID_ok hget
  subst ht
  have hupd := userRepository.UpdateRole_of_found newRole hfind
  exact ⟨_, _, generic db.Table repository.NewUserRepository userID newRole t1 t1 _ cur _
    hr hget hne hupd, rfl⟩

/-- Witness of C5: user 1 of the sample table, a plain user, becomes a moderator. -/
theorem C5_UpdateUserRole_success_witness :
    ∃ (resp : dto.UserResponse) (t2 : db.Table),
      roleService.UpdateUserRole (repository.recording repository.NewUserRepository)
          1 "moderator" (sampleTable, [])
        = (.ok resp, (t2, [RepoCall.GetByID 1, RepoCall.UpdateRole 1 "moderator"]))
      ∧ resp.Role = "moderator" :=
  C5_UpdateUserRole_success.2.2 sampleTable sampleTable 1 "moderator"
    { ID := 1, Name := "ann", Email := "ann@x", PasswordHash := "h1", Role := "user",
      CreatedAt := 10, UpdatedAt := 10 }
    (by decide) (by rfl) (by decide)

/-- C6: for every repository, user id and valid requested role: when the lookup
`GetByID` fails with an error that is `sql.ErrNoRows` (the user does not exist),
`UpdateUserRole` fails with the error "user not found"; when it fails with any
other error, `UpdateUserRole` fails with the error "failed to get user"; in
both cases the repository receives the lookup only, no write. The two errors,
`ErrInvalidRole` and `ErrSameRole` are four different values with four
different texts. -/
theorem C6_UpdateUserRole_lookup_failure :
    (∀ (σ : Type) (repo : repository.UserRepository σ) (userID : Int) (r : String)
        (s s1 : σ) (err : GoError),
        (r = "admin" ∨ r = "moderator" ∨ r = "user") →
        repo.GetByID userID s = (.error err, s1) →
        (errors.Is err .ErrNoRows = true →
          roleService.UpdateUserRole (repository.recording repo) userID r (s, [])
            = (.error (.new "user not found"), (s1, [RepoCall.GetByID userID])))
        ∧ (errors.Is err .ErrNoRows = false →
          roleService.UpdateUserRole (repository.recording repo) userID r (s, [])
            = (.error (.new "failed to get user"), (s1, [RepoCall.GetByID userID]))))
    ∧ [GoError.new "user not found", GoError.new "failed to get user",
        GoError.ErrInvalidRole, GoError.ErrSameRole].Nodup
    ∧ ([GoError.new "user not found", GoError.new "failed to get user",
        GoError.ErrInvalidRole, GoError.ErrSameRole].map GoError.Error).Nodup := by
  refine ⟨?_, by decide, by decide⟩
  intro σ repo userID r s s1 err hr hget
  have hv : roles.IsValidRole r = true := (roles.IsValidRole_iff r).mpr hr
  constructor
  · intro his
    simp [roleService.UpdateUserRole, hv, repository.recording, hget, his]
  · intro his
    simp [roleService.UpdateUserRole, hv, repository.recording, hget, his]

/-- Witness of C6: the unknown user 99 of the sample table, and a repository
whose lookup fails with a connection error. -/
theorem C6_UpdateUserRole_lookup_failure_witness :
    roleService.UpdateUserRole (repository.recording repository.NewUserRepository) 99
        "admin" (sampleTable, [])
      = (.error (.new "user not found"), (sampleTable, [RepoCall.GetByID 99]))
    ∧ roleService.UpdateUserRole
        (repository.recording
          (repository.fixed (.error (.new "connection refused")) (.error .ErrNoRows) (.ok [])))
        7 "admin" ((), [])
      = (.error (.new "failed to get user"), ((), [RepoCall.GetByID 7])) :=
  ⟨(C6_UpdateUserRole_lookup_failure.1 db.Table repository.NewUserRepository 99 "admin"
      sampleTable sampleTable .ErrNoRows (by decide) (by rfl)).1 (by decide),
   (C6_UpdateUserRole_lookup_failure.1 Unit
      (repository.fixed (.error (.new "connection refused")) (.error .ErrNoRows) (.ok []))
      7 "admin" () () (.new "connection refused") (by decide) (by rfl)).2 (by decide)⟩

/-! ## The role service: `GetUsersByRole` -/

/-- C7: for every repository and string `role`: when `role` is none of the three
identifiers, `GetUsersByRole` fails with `ErrInvalidRole` and the repository
receives no call; when `role` is valid and the query `GetByRole` succeeds with
the list `users`, `GetUsersByRole` returns without error a list of the same
length whose element `i` is the projection (id, name, email, role, timestamps,
no password hash) of `users[i]`, the empty list included; and over the table
`users` the result is the projection of the rows whose role equals `role`, in
table order, so that every returned user has the role `role`. -/
theorem C7_GetUsersByRole :
    (∀ (σ : Type) (repo : repository.UserRepository σ) (role : String) (s : σ),
        ¬ (role = "admin" ∨ role = "moderator" ∨ role = "user") →
        roleService.GetUsersByRole (repository.recording repo) role (s, [])
          = (.error .ErrInvalidRole, (s, [])))
    ∧ (∀ (σ : Type) (repo : repository.UserRepository σ) (role : String) (s s1 : σ)
        (users : List entity.User),
        (role = "admin" ∨ role = "moderator" ∨ role = "user") →
        repo.GetByRole role s = (.ok users, s1) →
        ∃ resp : List dto.UserResponse,
          roleService.GetUsersByRole (repository.recording repo) role (s, [])
            = (.ok resp, (s1, [RepoCall.GetByRole role]))
          ∧ resp.length = users.length
          ∧ (∀ (i : Nat) (h : i < users.length),
              resp[i]? = some
                { ID := users[i].ID, Name := users[i].Name, Email := users[i].Email,
                  Role := users[i].Role, CreatedAt := users[i].CreatedAt,
                  UpdatedAt := users[i].UpdatedAt })
          ∧ (users = [] → resp = []))
    ∧ (∀ (t : db.Table) (role : String),
        (role = "admin" ∨ role = "moderator" ∨ role = "user") →
        ∃ resp : List dto.UserResponse,
          roleService.GetUsersByRole repository.NewUserRepository role t = (.ok resp, t)
          ∧ resp = (t.filter (fun row => row.Role == role)).map
              (fun row => roleService.toResponse (userRepository.toEntity row))
          ∧ (∀ u ∈ resp, u.Role = role)) := by
  refine ⟨?_, ?_, ?_⟩
  · intro σ repo role s h
    have hv : roles.IsValidRole role = false := (roles.IsValidRole_false_iff role).mpr h
    simp [roleService.GetUsersByRole, hv]
  · intro σ repo role s s1 users hr hget
    have hv : roles.IsValidRole role = true := (roles.IsValidRole_iff role).mpr hr
    refine ⟨users.map roleService.toResponse, ?_, ?_, ?_, ?_⟩
    · simp [roleService.GetUsersByRole, hv, repository.recording, hget]
    · simp
    · intro i h
      simp [List.getElem?_map, List.getElem?_eq_getElem h, roleService.toResponse]
    · intro he
      simp [he]
  · intro t role hr
    have hv : roles.IsValidRole role = true := (roles.IsValidRole_iff role).mpr hr
    refine ⟨_, ?_, rfl, ?_⟩
    · simp [roleService.GetUsersByRole, hv, repository.NewUserRepository,
        userRepository.GetByRole, db.Queries.GetUsersByRole, List.map_map, Function.comp_def]
    · intro u hu
      rcases List.mem_map.mp hu with ⟨row, hrow, rfl⟩
      have := (List.mem_filter.mp hrow).2
      simpa [roleService.toResponse, userRepository.toEntity] using this

/-- Witness of C7: on the sample table the role "moderator" gives user 2 alone,
the role "admin" gives the empty list without error, and the role "root" is
refused before any query. -/
theorem C7_GetUsersByRole_witness :
    roleService.GetUsersByRole (repository.recording repository.NewUserRepository) "root"
        (sampleTable, []) = (.error .ErrInvalidRole, (sampleTable, []))
    ∧ (∃ resp : List dto.UserResponse,
        roleService.GetUsersByRole repository.NewUserRepository "moderator" sampleTable
          = (.ok resp, sampleTable)
        ∧ resp = (sampleTable.filter (fun row => row.Role == "moderator")).map
            (fun row => roleService.toResponse (userRepository.toEntity row))
        ∧ (∀ u ∈ resp, u.Role = "moderator"))
    ∧ (∃ resp : List dto.UserResponse,
        roleService.GetUsersByRole (repository.recording repository.NewUserRepository)
            "admin" (sampleTable, [])
          = (.ok resp, (sampleTable, [RepoCall.GetByRole "admin"]))
        ∧ resp = []) := by
  refine ⟨C7_GetUsersByRole.1 db.Table repository.NewUserRepository "root" sampleTable
      (by decide),
    C7_GetUsersByRole.2.2 sampleTable "moderator" (by decide), ?_⟩
  obtain ⟨resp, hres, _, _, hempty⟩ :=
    C7_GetUsersByRole.2.1 db.Table repository.NewUserRepository "admin" sampleTable
      sampleTable [] (by decide) (by rfl)
  exact ⟨resp, hres, hempty rfl⟩

/-! ## The invariant of the role transition -/

/-- C8: if every row of the table `users` has a role among "admin", "moderator",
"user" before a call `UpdateUserRole userID r`, then, for every id and every
string `r`, every row has such a role after the call; and for every repository,
a write `UpdateRole` that the repository receives during the call carries a
role among the three. -/
theorem C8_UpdateUserRole_keeps_roles_valid :
    (∀ (t : db.Table) (userID : Int) (r : String),
        db.AllRolesValid t →
        db.AllRolesValid (roleService.UpdateUserRole repository.NewUserRepository userID r t).2)
    ∧ (∀ (σ : Type) (repo : repository.UserRepository σ) (userID : Int) (r : String) (s : σ)
        (id1 : Int) (r1 : String),
        RepoCall.UpdateRole id1 r1
          ∈ (roleService.UpdateUserRole (repository.recording repo) userID r (s, [])).2.2 →
        (r1 = "admin" ∨ r1 = "moderator" ∨ r1 = "user")) := by
  constructor
  · intro t userID r ht
    rcases roleService.UpdateUserRole_table userID r t with h | ⟨hv, h⟩
    · rw [h]
      exact ht
    · rw [h]
      exact db.AllRolesValid_update t (toInt32 userID) r ((roles.IsValidRole_iff r).mp hv) ht
  · intro σ repo userID r s id1 r1 hmem
    rcases roleService.UpdateUserRole_calls repo userID r s with h | h | ⟨hv, h⟩
    · rw [h] at hmem
      simp at hmem
    · rw [h] at hmem
      simp at hmem
    · rw [h] at hmem
      simp only [List.mem_cons, List.mem_singleton, RepoCall.UpdateRole.injEq,
        List.not_mem_nil, or_false] at hmem
      rcases hmem with hmem | hmem
      · cases hmem
      · rw [hmem.2]
        exact (roles.IsValidRole_iff r).mp hv

/-- Witness of C8: on the sample table, after user 1 is made an admin and after
the role "superadmin" is asked for, every row still has a valid role; the
write received in the first call carries "admin". -/
theorem C8_UpdateUserRole_keeps_roles_valid_witness :
    db.AllRolesValid sampleTable
    ∧ db.AllRolesValid
        (roleService.UpdateUserRole repository.NewUserRepository 1 "admin" sampleTable).2
    ∧ db.AllRolesValid
        (roleService.UpdateUserRole repository.NewUserRepository 1 "superadmin" sampleTable).2
    ∧ ("admin" = "admin" ∨ "admin" = "moderator" ∨ "admin" = "user") :=
  ⟨by decide,
   C8_UpdateUserRole_keeps_roles_valid.1 sampleTable 1 "admin" (by decide),
   C8_UpdateUserRole_keeps_roles_valid.1 sampleTable 1 "superadmin" (by decide),
   C8_UpdateUserRole_keeps_roles_valid.2 db.Table repository.NewUserRepository 1 "admin"
     sampleTable 1 "admin" (by decide)⟩

/-! ## The role handler -/

/-- C9: in `RoleHandler.UpdateUserRole`, once the id parses and the body binds
and validates, an error `err` from the role service is answered with status 400
when it is `ErrInvalidRole` or `ErrSameRole` and with status 500 when it is any
other error, so that the status is in the 400 class exactly for those two; a
result without error is answered 200 with the updated user as data. In
`RoleHandler.GetUsersByRole` an empty `role` query parameter is answered 400
without a call to the service, the service error `ErrInvalidRole` 400, and any
other service error 500. -/
theorem C9_handler_status_of_service_error :
    (∀ (σ : Type) (h : RoleHandler σ) (c : echo.Context) (s s1 : σ) (userID : Int)
        (req : dto.UpdateUserRoleRequest) (err : GoError),
        strconv.Atoi (c.Param "id") = .ok userID → c.Bind = .ok req →
        h.validator.ValidateStruct req = none →
        h.roleService.UpdateUserRole userID req.Role s = (.error err, s1) →
        ((err = .ErrInvalidRole ∨ err = .ErrSameRole) →
          (RoleHandler.UpdateUserRole h c s).1.status = 400)
        ∧ (¬ (err = .ErrInvalidRole ∨ err = .ErrSameRole) →
          (RoleHandler.UpdateUserRole h c s).1.status = 500)
        ∧ ((RoleHandler.UpdateUserRole h c s).1.status / 100 = 4
            ↔ (err = .ErrInvalidRole ∨ err = .ErrSameRole)))
    ∧ (∀ (σ : Type) (h : RoleHandler σ) (c : echo.Context) (s s1 : σ) (userID : Int)
        (req : dto.UpdateUserRoleRequest) (updatedUser : dto.UserResponse),
        strconv.Atoi (c.Param "id") = .ok userID → c.Bind = .ok req →
        h.validator.ValidateStruct req = none →
        h.roleService.UpdateUserRole userID req.Role s = (.ok updatedUser, s1) →
        RoleHandler.UpdateUserRole h c s
          = (response.Success "User role updated successfully" (.user updatedUser), s1)
        ∧ (RoleHandler.UpdateUserRole h c s).1.status = 200)
    ∧ (∀ (σ : Type) (h : RoleHandler σ) (c : echo.Context) (s : σ),
        c.QueryParam "role" = "" →
        RoleHandler.GetUsersByRole h c s
          = (response.BadRequest "Role query parameter is required" .none, s)
        ∧ (RoleHandler.GetUsersByRole h c s).1.status = 400)
    ∧ (∀ (σ : Type) (h : RoleHandler σ) (c : echo.Context) (s s1 : σ) (err : GoError),
        c.QueryParam "role" ≠ "" →
        h.roleService.GetUsersByRole (c.QueryParam "role") s = (.error err, s1) →
        (err = .ErrInvalidRole → (RoleHandler.GetUsersByRole h c s).1.status = 400)
        ∧ (err ≠ .ErrInvalidRole → (RoleHandler.GetUsersByRole h c s).1.status = 500)) := by
  refine ⟨?_, ?_, ?_, ?_⟩
  · intro σ h c s s1 userID req err hid hbind hval hsvc
    by_cases h1 : err = .ErrInvalidRole
    · simp [RoleHandler.UpdateUserRole, hid, hbind, hval, hsvc, h1, response.BadRequest]
    · by_cases h2 : err = .ErrSameRole
      · simp [RoleHandler.UpdateUserRole, hid, hbind, hval, hsvc, h2, response.BadRequest]
      · simp [RoleHandler.UpdateUserRole, hid, hbind, hval, hsvc, h1, h2,
          response.InternalServerError]
  · intro σ h c s s1 userID req updatedUser hid hbind hval hsvc
    simp [RoleHandler.UpdateUserRole, hid, hbind, hval, hsvc, response.Success]
  · intro σ h c s hrole
    simp [RoleHandler.GetUsersByRole, hrole, response.BadRequest]
  · intro σ h c s s1 err hrole hsvc
    constructor
    · intro h1
      simp [RoleHandler.GetUsersByRole, hrole, hsvc, h1, response.BadRequest]
    · intro h1
      simp [RoleHandler.GetUsersByRole, hrole, hsvc, h1, response.InternalServerError]

/-- Witness of C9: over the sample table, the handler in front of the role
service answers 400 to an unchanged role, 500 to an unknown user, 200 with the
updated user to a change of role, and 400 to a missing `role` parameter; in
front of a service whose listing fails it answers 500. -/
theorem C9_handler_status_of_service_error_witness :
    (RoleHandler.UpdateUserRole
        ⟨service.NewRoleService repository.NewUserRepository, validator.pass⟩
        (ctxRequest "2" "" "moderator") sampleTable).1.status = 400
    ∧ (RoleHandler.UpdateUserRole
        ⟨service.NewRoleService repository.NewUserRepository, validator.pass⟩
        (ctxRequest "99" "" "admin") sampleTable).1.status = 500
    ∧ (RoleHandler.UpdateUserRole
        ⟨service.fixed
          (.ok { ID := 1, Name := "ann", Email := "ann@x", Role := "admin", CreatedAt := 10,
                 UpdatedAt := 11 }) (.ok []), validator.pass⟩
        (ctxRequest "1" "" "admin") ()).1.status = 200
    ∧ (RoleHandler.GetUsersByRole
        ⟨service.NewRoleService repository.NewUserRepository, validator.pass⟩
        (ctxRequest "" "" "") sampleTable).1.status = 400
    ∧ (RoleHandler.GetUsersByRole
        ⟨service.fixed (.error .ErrSameRole) (.error (.new "failed to get users by role")),
          validator.pass⟩
        (ctxRequest "" "admin" "") ()).1.status = 500 :=
  ⟨(C9_handler_status_of_service_error.1 db.Table
      ⟨service.NewRoleService repository.NewUserRepository, validator.pass⟩
      (ctxRequest "2" "" "moderator") sampleTable sampleTable 2 ⟨"moderator"⟩ .ErrSameRole
      (by rfl) (by rfl) (by rfl) (by rfl)).1 (by decide),
   (C9_handler_status_of_service_error.1 db.Table
      ⟨service.NewRoleService repository.NewUserRepository, validator.pass⟩
      (ctxRequest "99" "" "admin") sampleTable sampleTable 99 ⟨"admin"⟩
      (.new "user not found") (by rfl) (by rfl) (by rfl) (by rfl)).2.1 (by decide),
   (C9_handler_status_of_service_error.2.1 Unit
      ⟨service.fixed
        (.ok { ID := 1, Name := "ann", Email := "ann@x", Role := "admin", CreatedAt := 10,
               UpdatedAt := 11 }) (.ok []), validator.pass⟩
      (ctxRequest "1" "" "admin") () () 1 ⟨"admin"⟩
      { ID := 1, Name := "ann", Email := "ann@x", Role := "admin", CreatedAt := 10,
        UpdatedAt := 11 }
      (by rfl) (by rfl) (by rfl) (by rfl)).2,
   (C9_handler_status_of_service_error.2.2.1 db.Table
      ⟨service.NewRoleService repository.NewUserRepository, validator.pass⟩
      (ctxRequest "" "" "") sampleTable (by rfl)).2,
   (C9_handler_status_of_service_error.2.2.2 Unit
      ⟨service.fixed (.error .ErrSameRole) (.error (.new "failed to get users by role")),
        validator.pass⟩
      (ctxRequest "" "admin" "") () () (.new "failed to get users by role")
      (by decide) (by rfl)).2 (by decide)⟩

/-- C10: `GetAllRoles` is the list "admin", "moderator", "user": three elements
in this order, none twice; and `GetAvailableRoles` answers every request with
200 and this list under the key "roles", leaving the state as it is. -/
theorem C10_GetAllRoles_fixed :
    roles.GetAllRoles = ["admin", "moderator", "user"]
    ∧ roles.GetAllRoles.length = 3
    ∧ roles.GetAllRoles.Nodup
    ∧ (∀ (σ : Type) (h : RoleHandler σ) (c : echo.Context) (s : σ),
        RoleHandler.GetAvailableRoles h c s
          = (response.Success "Available roles retrieved successfully"
              (.object [("roles", ["admin", "moderator", "user"])]), s)
        ∧ (RoleHandler.GetAvailableRoles h c s).1.status = 200) := by
  refine ⟨rfl, rfl, by decide, ?_⟩
  intro σ h c s
  exact ⟨rfl, rfl⟩

/-! ## Capability predicates and the pre-built middlewares -/

/-- C11: for every string `r`, `CanManageUsers r` and `HasAdminAccess r` are the
same and are true exactly when `r` is "admin"; `CanManageFiles r`,
`CanViewAllUsers r` and `HasModeratorAccess r` are the same and are true
exactly when `r` is "admin" or "moderator". For a request whose principal role
is the string `r`, `RequireAdmin` calls the wrapped handler exactly when
`HasAdminAccess r`, and `RequireModeratorOrAdmin` exactly when
`HasModeratorAccess r`; when `r` is "user" or none of the three roles, both
answer Forbidden and the wrapped handler is not called. -/
theorem C11_capabilities_and_prebuilt_middlewares (r : String) :
    roles.CanManageUsers r = roles.HasAdminAccess r
    ∧ (roles.HasAdminAccess r = true ↔ r = "admin")
    ∧ roles.CanManageFiles r = roles.HasModeratorAccess r
    ∧ roles.CanViewAllUsers r = roles.HasModeratorAccess r
    ∧ (roles.HasModeratorAccess r = true ↔ (r = "admin" ∨ r = "moderator"))
    ∧ (∀ (ρ : Type) (next : echo.Context → ρ) (c : echo.Context),
        c.Get "user_role" = .str r →
        (middleware.RequireAdmin next c = .passed (next c) ↔ roles.HasAdminAccess r = true)
        ∧ (middleware.RequireModeratorOrAdmin next c = .passed (next c)
            ↔ roles.HasModeratorAccess r = true)
        ∧ ((r = "user" ∨ ¬ (r = "admin" ∨ r = "moderator" ∨ r = "user")) →
            middleware.RequireAdmin next c
              = .answered (response.Forbidden "Insufficient permissions")
            ∧ middleware.RequireModeratorOrAdmin next c
              = .answered (response.Forbidden "Insufficient permissions"))) := by
  have hadmin : roles.HasAdminAccess r = true ↔ r = "admin" := by
    simp [roles.HasAdminAccess, roles.Admin]
  have hmod : roles.HasModeratorAccess r = true ↔ (r = "admin" ∨ r = "moderator") := by
    simp [roles.HasModeratorAccess, roles.Admin, roles.Moderator]
  refine ⟨rfl, hadmin, rfl, rfl, hmod, ?_⟩
  intro ρ next c hv
  have hA : middleware.RequireAdmin next c
      = middleware.RequireRoles.range next c r ["admin"] := by
    simp [middleware.RequireAdmin, middleware.RequireRoles, hv, roles.Admin]
  have hM : middleware.RequireModeratorOrAdmin next c
      = middleware.RequireRoles.range next c r ["admin", "moderator"] := by
    simp [middleware.RequireModeratorOrAdmin, middleware.RequireRoles, hv, roles.Admin,
      roles.Moderator]
  refine ⟨?_, ?_, ?_⟩
  · rw [hA, hadmin]
    constructor
    · intro h
      by_contra hne
      have hnot : r ∉ ["admin"] := by simpa using hne
      rw [middleware.RequireRoles.range_not_mem next c r _ hnot] at h
      cases h
    · intro h
      exact middleware.RequireRoles.range_mem next c r _ (by simp [h])
  · rw [hM, hmod]
    constructor
    · intro h
      by_contra hne
      have hnot : r ∉ ["admin", "moderator"] := by simpa using hne
      rw [middleware.RequireRoles.range_not_mem next c r _ hnot] at h
      cases h
    · intro h
      exact middleware.RequireRoles.range_mem next c r _ (by simpa using h)
  · intro h
    have hne : r ≠ "admin" ∧ r ≠ "moderator" := by
      rcases h with h | h
      · subst h
        exact ⟨by decide, by decide⟩
      · exact ⟨fun e => h (Or.inl e), fun e => h (Or.inr (Or.inl e))⟩
    rw [hA, hM]
    exact ⟨middleware.RequireRoles.range_not_mem next c r _ (by simpa using hne.1),
      middleware.RequireRoles.range_not_mem next c r _ (by simpa using hne)⟩

/-- Witness of C11: a request with the role "moderator" is refused by
`RequireAdmin` and let through by `RequireModeratorOrAdmin`; requests with the
role "user" and with the role "root" are answered Forbidden by both. -/
theorem C11_capabilities_and_prebuilt_middlewares_witness :
    roles.HasAdminAccess "moderator" = false
    ∧ roles.HasModeratorAccess "moderator" = true
    ∧ middleware.RequireModeratorOrAdmin (fun _ => "handled") (ctxWithRole (.str "moderator"))
      = .passed "handled"
    ∧ (middleware.RequireAdmin (fun _ => "handled") (ctxWithRole (.str "user"))
        = .answered (response.Forbidden "Insufficient permissions")
      ∧ middleware.RequireModeratorOrAdmin (fun _ => "handled") (ctxWithRole (.str "user"))
        = .answered (response.Forbidden "Insufficient permissions"))
    ∧ (middleware.RequireAdmin (fun _ => "handled") (ctxWithRole (.str "root"))
        = .answered (response.Forbidden "Insufficient permissions")
      ∧ middleware.RequireModeratorOrAdmin (fun _ => "handled") (ctxWithRole (.str "root"))
        = .answered (response.Forbidden "Insufficient permissions")) :=
  ⟨by decide, by decide,
   ((C11_capabilities_and_prebuilt_middlewares "moderator").2.2.2.2.2 String
      (fun _ => "handled") (ctxWithRole (.str "moderator")) (by decide)).2.1.mpr (by decide),
   ((C11_capabilities_and_prebuilt_middlewares "user").2.2.2.2.2 String
      (fun _ => "handled") (ctxWithRole (.str "user")) (by decide)).2.2 (Or.inl rfl),
   ((C11_capabilities_and_prebuilt_middlewares "root").2.2.2.2.2 String
      (fun _ => "handled") (ctxWithRole (.str "root")) (by decide)).2.2
      (Or.inr (by decide))⟩

end GoTemplate
